import Mathlib

/-!
Verification of the `licencpp` pipeline (`src/licencpp.py`).

The script parses a DGML dependency graph, resolves each dependency's
metadata from vcpkg registry manifests, and assembles an SPDX-style
document.  This file gives a shallow embedding of the data model and the
four core functions (`parse_dgml`, `get_version_from_dep_data`,
`get_data_from_vcpkg_json`, `generate_spdx_document`), together with the
top-level loop that builds the `dependencies_info` dictionary, and proves
the specified properties about them.

Modelling conventions:
* A vcpkg manifest (`vcpkg.json`) is a `DepData` record: each JSON field
  read by the script is `Option String` (`none` = key absent or `null`,
  matching Python's `dict.get`); `description` may be a string or a list
  of strings, so it is `Option DescValue`.
* The filesystem is modelled per registry directory as an association
  list from port name to manifest: `os.path.exists(<dir>/<dep>/vcpkg.json)`
  holds iff `<dep>` is a key of the corresponding list.
* Python's `x or "NOASSERTION"` is falsy on both `None` and the empty
  string; `orNOASSERTION` reproduces that exactly.
* Python dicts keep insertion order and overwrite in place on repeated
  keys; `dictInsert` reproduces that on an association list.
* Wall-clock fields of the document (`creationInfo.created`,
  `documentNamespace`) are omitted from the embedded document structure:
  no claim mentions them and they depend on `datetime.now()`.
-/

/-- A JSON `description` value as read by the script: either a single
string or a list of strings (`get_data_from_vcpkg_json` joins the latter
with single spaces). -/
inductive DescValue where
  | str : String → DescValue
  | strs : List String → DescValue
deriving DecidableEq, Repr

/-- The fields of a dependency's `vcpkg.json` that the script reads.
`none` models an absent (or JSON-null) key, as returned by `dict.get`. -/
structure DepData where
  license : Option String := none
  homepage : Option String := none
  version : Option String := none
  versionSemver : Option String := none
  versionDate : Option String := none
  versionString : Option String := none
  description : Option DescValue := none
deriving DecidableEq, Repr

/-- The metadata the script keeps for one dependency: the 4-tuple
returned by `get_data_from_vcpkg_json`, equally the per-dependency dict
`{'license': ..., 'homepage': ..., 'version': ..., 'description': ...}`
stored in `dependencies_info`. -/
structure DepInfo where
  license : Option String
  homepage : Option String
  version : Option String
  description : Option String
deriving DecidableEq, Repr

/-- The root project's fields, read once from the project's `vcpkg.json`
(`project_name`, `project_license`, `project_homepage`, `project_version`,
`project_description`). -/
structure ProjectInfo where
  name : String
  license : Option String := none
  homepage : Option String := none
  version : Option String := none
  description : Option String := none
deriving DecidableEq, Repr

/-- One package record of the generated SPDX document. -/
structure Package where
  SPDXID : String
  name : String
  downloadLocation : String
  homepage : String
  licenseConcluded : String
  licenseDeclared : String
  description : String
  versionInfo : String
deriving DecidableEq, Repr

/-- One relationship record of the generated SPDX document. -/
structure Relationship where
  spdxElementId : String
  relationshipType : String
  relatedSpdxElement : String
deriving DecidableEq, Repr

/-- The generated SPDX document (wall-clock-dependent fields omitted,
see the module docstring). -/
structure SpdxDocument where
  SPDXID : String
  spdxVersion : String
  name : String
  dataLicense : String
  documentDescribes : List String
  packages : List Package
  relationships : List Relationship
deriving DecidableEq, Repr

/-- A registry directory (`vcpkg_ports_dir` or
`vcpkg_additional_registry`): `<dir>/<dep>/vcpkg.json` exists iff `dep`
is a key, and then loading it yields the associated `DepData`. -/
def Registry : Type := List (String × DepData)

/-- The two manifest locations the script searches, with
`additionalConfigured` modelling `vcpkg_additional_registry != ''`. -/
structure Registries where
  additionalConfigured : Bool
  additional : Registry
  official : Registry

/-- Existence plus load of `<dir>/<dep>/vcpkg.json` in one registry
directory. -/
def lookupReg (reg : Registry) (dep : String) : Option DepData :=
  (reg.find? (fun kv => kv.1 == dep)).map (fun kv => kv.2)

/-! ### XML / DGML model -/

/-- An XML element: tag (namespace-qualified, as ElementTree renders it),
attributes, children in document order. -/
inductive XmlElem where
  | mk : String → List (String × String) → List XmlElem → XmlElem
deriving Repr

/-- The tag of an element. -/
def XmlElem.tag : XmlElem → String
  | .mk t _ _ => t

/-- The attribute list of an element. -/
def XmlElem.attrs : XmlElem → List (String × String)
  | .mk _ a _ => a

/-- The children of an element. -/
def XmlElem.children : XmlElem → List XmlElem
  | .mk _ _ c => c

/-- ElementTree's `element.get(key)`: the attribute's value, or `None`
if the attribute is missing. -/
def attrGet (e : XmlElem) (key : String) : Option String :=
  ((e.attrs).find? (fun kv => kv.1 == key)).map (fun kv => kv.2)

mutual
/-- All proper descendants of an element, in document order — what
`element.findall('.//…')` iterates before tag filtering. -/
def descendants : XmlElem → List XmlElem
  | .mk _ _ cs => descendantsList cs

/-- Document-order flattening of a forest: each tree's root followed by
its descendants. -/
def descendantsList : List XmlElem → List XmlElem
  | [] => []
  | c :: cs => c :: (descendants c ++ descendantsList cs)
end

/-- The namespace-qualified tag ElementTree gives DGML `Node` elements:
`\x7bhttp://schemas.microsoft.com/vs/2009/dgml\x7dNode`. -/
def dgmlNodeTag : String :=
  "\x7bhttp://schemas.microsoft.com/vs/2009/dgml\x7dNode"

/-- The `Node` elements of a DGML document, in document order — the
result of `root.findall('.//\x7bns\x7dNode')`. -/
def dgmlNodes (root : XmlElem) : List XmlElem :=
  (descendants root).filter (fun e => e.tag == dgmlNodeTag)

/-- `parse_dgml`: appends `node.get('Id')` for every `Node` element found
under the graph root, in document order. -/
def parse_dgml (root : XmlElem) : List (Option String) :=
  (dgmlNodes root).foldl (fun deps node => deps ++ [attrGet node "Id"]) []

/-! ### Manifest resolution -/

/-- The fixed key precedence list of `get_version_from_dep_data`:
`['version', 'version-semver', 'version-date', 'version-string']`. -/
def version_keys : List String :=
  ["version", "version-semver", "version-date", "version-string"]

/-- `dep_data.get(key)` for the four version keys. -/
def getVersionKey (d : DepData) (key : String) : Option String :=
  if key = "version" then d.version
  else if key = "version-semver" then d.versionSemver
  else if key = "version-date" then d.versionDate
  else if key = "version-string" then d.versionString
  else none

/-- The `for key in keys` loop body of `get_version_from_dep_data`:
return the first key whose value is not `None`. -/
def firstVersionHit (d : DepData) : List String → Option String
  | [] => none
  | k :: ks =>
    match getVersionKey d k with
    | some v => some v
    | none => firstVersionHit d ks

/-- `get_version_from_dep_data`: first present, non-null value among the
fixed version keys. -/
def get_version_from_dep_data (d : DepData) : Option String :=
  firstVersionHit d version_keys

/-- The description normalization inside `get_data_from_vcpkg_json`: a
list of strings is joined with single spaces, a plain string is kept. -/
def descToString : Option DescValue → Option String
  | none => none
  | some (.str s) => some s
  | some (.strs l) => some (String.intercalate " " l)

/-- Reading one manifest inside `get_data_from_vcpkg_json`: the 4-tuple
`(license, homepage, version, description)` extracted from `dep_data`. -/
def readDepData (d : DepData) : DepInfo :=
  { license := d.license
  , homepage := d.homepage
  , version := get_version_from_dep_data d
  , description := descToString d.description }

/-- The candidate-path list of `get_data_from_vcpkg_json`: the additional
registry first when configured, then the official registry.  Each entry
is the (existence, contents) of `<dir>/<dep>/vcpkg.json`. -/
def candidate_manifests (r : Registries) (dep : String) : List (Option DepData) :=
  (if r.additionalConfigured then [lookupReg r.additional dep] else [])
    ++ [lookupReg r.official dep]

/-- The `for vcpkg_json_path in vcpkg_json_paths` loop: the first
candidate path that exists. -/
def firstExisting : List (Option DepData) → Option DepData
  | [] => none
  | some d :: _ => some d
  | none :: rest => firstExisting rest

/-- `get_data_from_vcpkg_json`: read the first existing candidate
manifest; all-`None` when no candidate path exists. -/
def get_data_from_vcpkg_json (r : Registries) (dep : String) : DepInfo :=
  match firstExisting (candidate_manifests r dep) with
  | some d => readDepData d
  | none => ⟨none, none, none, none⟩

/-! ### The main loop and the document assembler -/

/-- Python dict assignment `d[k] = v` on an insertion-ordered
association list: overwrite in place if the key is present, else append. -/
def dictInsert (d : List (String × DepInfo)) (k : String) (v : DepInfo) :
    List (String × DepInfo) :=
  if d.any (fun kv => kv.1 == k) then
    d.map (fun kv => if kv.1 == k then (k, v) else kv)
  else
    d ++ [(k, v)]

/-- The script's main loop: `for dep in dependencies:
dependencies_info[dep] = {...get_data_from_vcpkg_json(dep)...}`. -/
def dependencies_info (r : Registries) (deps : List String) :
    List (String × DepInfo) :=
  deps.foldl (fun acc dep => dictInsert acc dep (get_data_from_vcpkg_json r dep)) []

/-- Python's `x or "NOASSERTION"` on an optional string: `None` and the
empty string are falsy, everything else is returned unchanged. -/
def orNOASSERTION : Option String → String
  | none => "NOASSERTION"
  | some s => if s = "" then "NOASSERTION" else s

/-- The root package record built from the project's own manifest
fields. -/
def root_package (proj : ProjectInfo) : Package :=
  { SPDXID := "SPDXRef-Package-" ++ proj.name
  , name := proj.name
  , downloadLocation := orNOASSERTION proj.homepage
  , homepage := orNOASSERTION proj.homepage
  , licenseConcluded := "NOASSERTION"
  , licenseDeclared := orNOASSERTION proj.license
  , description := orNOASSERTION proj.description
  , versionInfo := orNOASSERTION proj.version }

/-- One dependency's package record, as appended inside the
`for dep, info in dependencies_info.items()` loop. -/
def dep_package (dep : String) (info : DepInfo) : Package :=
  { SPDXID := "SPDXRef-Package-" ++ dep
  , name := dep
  , downloadLocation := orNOASSERTION info.homepage
  , homepage := orNOASSERTION info.homepage
  , licenseConcluded := "NOASSERTION"
  , licenseDeclared := orNOASSERTION info.license
  , description := orNOASSERTION info.description
  , versionInfo := orNOASSERTION info.version }

/-- The relationship record appended for one dependency: root
DEPENDS_ON dependency. -/
def dep_relationship (projName dep : String) : Relationship :=
  { spdxElementId := "SPDXRef-Package-" ++ projName
  , relationshipType := "DEPENDS_ON"
  , relatedSpdxElement := "SPDXRef-Package-" ++ dep }

/-- The body of the assembler's dependency loop: skip entries whose
constructed SPDX id equals the root's, otherwise append one package
record and one DEPENDS_ON relationship. -/
def spdx_step (proj : ProjectInfo) (doc : SpdxDocument) (kv : String × DepInfo) :
    SpdxDocument :=
  if "SPDXRef-Package-" ++ kv.1 = "SPDXRef-Package-" ++ proj.name then doc
  else
    { doc with
      packages := doc.packages ++ [dep_package kv.1 kv.2]
    , relationships := doc.relationships ++ [dep_relationship proj.name kv.1] }

/-- `generate_spdx_document`: the initial document with the root package
record, then the dependency loop over `dependencies_info` in insertion
order. -/
def generate_spdx_document (proj : ProjectInfo)
    (deps_info : List (String × DepInfo)) : SpdxDocument :=
  deps_info.foldl (spdx_step proj)
    { SPDXID := "SPDXRef-DOCUMENT"
    , spdxVersion := "SPDX-2.2"
    , name := proj.name
    , dataLicense := "CC0-1.0"
    , documentDescribes := ["SPDXRef-Package-" ++ proj.name]
    , packages := [root_package proj]
    , relationships := [] }

/-- The whole pipeline after graph parsing: resolve every identifier,
then assemble the document. -/
def run_pipeline (proj : ProjectInfo) (r : Registries) (deps : List String) :
    SpdxDocument :=
  generate_spdx_document proj (dependencies_info r deps)

/-! ### Helper lemmas -/

/-- Appending a fixed string on the left is injective. -/
theorem string_append_left_cancel (s a b : String) : s ++ a = s ++ b ↔ a = b := by
  cases s with | mk xs =>
  cases a with | mk ys =>
  cases b with | mk zs =>
  constructor
  · intro h
    have h2 : xs ++ ys = xs ++ zs := congrArg String.data h
    exact congrArg String.mk (List.append_cancel_left h2)
  · intro h
    rw [h]

/-- A `foldl` that appends one image per element is a `map`. -/
theorem foldl_append_map {α β : Type} (f : α → β) (l : List α) (acc : List β) :
    l.foldl (fun acc x => acc ++ [f x]) acc = acc ++ l.map f := by
  induction l generalizing acc with
  | nil => simp
  | cons a as ih => simp [ih]

/-- `parse_dgml` is exactly the map of `node.get('Id')` over the `Node`
elements in document order. -/
theorem parse_dgml_eq_map (root : XmlElem) :
    parse_dgml root = (dgmlNodes root).map (fun e => attrGet e "Id") := by
  unfold parse_dgml
  rw [foldl_append_map]
  simp

/-- The assembler's loop body, with the SPDX-id comparison reduced to a
comparison of raw identifiers. -/
theorem spdx_step_eq (proj : ProjectInfo) (doc : SpdxDocument) (kv : String × DepInfo) :
    spdx_step proj doc kv =
      if kv.1 = proj.name then doc
      else
        { doc with
          packages := doc.packages ++ [dep_package kv.1 kv.2]
        , relationships := doc.relationships ++ [dep_relationship proj.name kv.1] } := by
  unfold spdx_step
  by_cases h : kv.1 = proj.name
  · rw [if_pos (by rw [h]), if_pos h]
  · rw [if_neg (fun hc => h ((string_append_left_cancel _ _ _).1 hc)), if_neg h]

/-- Unrolled form of the assembler's dependency loop: both accumulated
lists grow by one mapped entry per non-root key. -/
theorem spdx_foldl_eq (proj : ProjectInfo) (l : List (String × DepInfo))
    (doc : SpdxDocument) :
    (l.foldl (spdx_step proj) doc).packages =
      doc.packages ++
        (l.filter (fun kv => kv.1 != proj.name)).map (fun kv => dep_package kv.1 kv.2) ∧
    (l.foldl (spdx_step proj) doc).relationships =
      doc.relationships ++
        (l.filter (fun kv => kv.1 != proj.name)).map (fun kv => dep_relationship proj.name kv.1) := by
  induction l generalizing doc with
  | nil => simp
  | cons kv rest ih =>
    by_cases h : kv.1 = proj.name
    · simpa [spdx_step_eq, h, List.filter_cons] using ih doc
    · have := ih { doc with
          packages := doc.packages ++ [dep_package kv.1 kv.2]
        , relationships := doc.relationships ++ [dep_relationship proj.name kv.1] }
      simpa [spdx_step_eq, h, List.filter_cons] using this

/-- The packages of the generated document: the root record followed by
one record per non-root entry of `dependencies_info`, in order. -/
theorem generate_packages_eq (proj : ProjectInfo) (deps_info : List (String × DepInfo)) :
    (generate_spdx_document proj deps_info).packages =
      root_package proj ::
        (deps_info.filter (fun kv => kv.1 != proj.name)).map (fun kv => dep_package kv.1 kv.2) := by
  unfold generate_spdx_document
  rw [(spdx_foldl_eq proj deps_info _).1]
  simp

/-- The relationships of the generated document: one root-DEPENDS_ON
record per non-root entry of `dependencies_info`, in order. -/
theorem generate_relationships_eq (proj : ProjectInfo) (deps_info : List (String × DepInfo)) :
    (generate_spdx_document proj deps_info).relationships =
      (deps_info.filter (fun kv => kv.1 != proj.name)).map
        (fun kv => dep_relationship proj.name kv.1) := by
  unfold generate_spdx_document
  rw [(spdx_foldl_eq proj deps_info _).2]
  simp

/-- The key-containment test of `dictInsert`, as membership in the key
list. -/
theorem dict_any_iff (d : List (String × DepInfo)) (k : String) :
    d.any (fun kv => kv.1 == k) = true ↔ k ∈ d.map Prod.fst := by
  simp [List.any_eq_true, List.mem_map, beq_iff_eq]

/-- The key list after a dict assignment: unchanged when the key was
present, extended at the end otherwise. -/
theorem dictInsert_keys (d : List (String × DepInfo)) (k : String) (v : DepInfo) :
    (dictInsert d k v).map Prod.fst =
      if k ∈ d.map Prod.fst then d.map Prod.fst else d.map Prod.fst ++ [k] := by
  unfold dictInsert
  by_cases h : k ∈ d.map Prod.fst
  · rw [if_pos ((dict_any_iff d k).2 h), if_pos h, List.map_map]
    apply List.map_congr_left
    intro kv _
    by_cases hk : kv.1 = k
    · simp [hk]
    · simp [beq_iff_eq, hk]
  · rw [if_neg (fun hc => h ((dict_any_iff d k).1 hc)), if_neg h]
    simp

/-- Membership in the key list after a dict assignment. -/
theorem dictInsert_mem_keys (d : List (String × DepInfo)) (k : String) (v : DepInfo)
    (s : String) :
    s ∈ (dictInsert d k v).map Prod.fst ↔ s ∈ d.map Prod.fst ∨ s = k := by
  rw [dictInsert_keys]
  by_cases h : k ∈ d.map Prod.fst
  · rw [if_pos h]
    constructor
    · intro hs
      exact Or.inl hs
    · rintro (hs | rfl)
      · exact hs
      · exact h
  · rw [if_neg h]
    simp

/-- Dict assignment preserves distinctness of keys. -/
theorem dictInsert_nodup (d : List (String × DepInfo)) (k : String) (v : DepInfo)
    (h : (d.map Prod.fst).Nodup) : ((dictInsert d k v).map Prod.fst).Nodup := by
  rw [dictInsert_keys]
  by_cases hk : k ∈ d.map Prod.fst
  · rwa [if_pos hk]
  · rw [if_neg hk]
    simp [List.nodup_append, h, hk]

/-- When every stored value is determined by its key via `g`, a dict
assignment of `g k` keeps that invariant. -/
theorem dictInsert_values (d : List (String × DepInfo)) (k : String)
    (g : String → DepInfo) (h : ∀ kv ∈ d, kv.2 = g kv.1) :
    ∀ kv ∈ dictInsert d k (g k), kv.2 = g kv.1 := by
  unfold dictInsert
  intro kv hm
  by_cases hc : d.any (fun kv => kv.1 == k) = true
  · rw [if_pos hc] at hm
    obtain ⟨kv0, hm0, heq⟩ := List.mem_map.1 hm
    by_cases hk : kv0.1 = k
    · rw [if_pos (by simp [beq_iff_eq, hk])] at heq
      rw [← heq]
    · rw [if_neg (by simp [beq_iff_eq, hk])] at heq
      rw [← heq]
      exact h kv0 hm0
  · rw [if_neg hc] at hm
    rcases List.mem_append.1 hm with hm1 | hm2
    · exact h kv hm1
    · rw [List.mem_singleton.1 hm2]

/-- Unrolling the main loop: keys collected so far plus the remaining
identifiers. -/
theorem depinfo_foldl_mem (r : Registries) (deps : List String)
    (acc : List (String × DepInfo)) (s : String) :
    (s ∈ ((deps.foldl (fun acc dep => dictInsert acc dep (get_data_from_vcpkg_json r dep)) acc).map Prod.fst)) ↔
      s ∈ acc.map Prod.fst ∨ s ∈ deps := by
  induction deps generalizing acc with
  | nil => simp
  | cons a as ih =>
    rw [List.foldl_cons, ih, dictInsert_mem_keys]
    simp [List.mem_cons, or_assoc]

/-- Unrolling the main loop: keys stay distinct. -/
theorem depinfo_foldl_nodup (r : Registries) (deps : List String)
    (acc : List (String × DepInfo)) (h : (acc.map Prod.fst).Nodup) :
    (((deps.foldl (fun acc dep => dictInsert acc dep (get_data_from_vcpkg_json r dep)) acc).map Prod.fst)).Nodup := by
  induction deps generalizing acc with
  | nil => exact h
  | cons a as ih =>
    rw [List.foldl_cons]
    exact ih _ (dictInsert_nodup _ _ _ h)

/-- Unrolling the main loop: every stored value is the resolution of its
key. -/
theorem depinfo_foldl_values (r : Registries) (deps : List String)
    (acc : List (String × DepInfo))
    (h : ∀ kv ∈ acc, kv.2 = get_data_from_vcpkg_json r kv.1) :
    ∀ kv ∈ deps.foldl (fun acc dep => dictInsert acc dep (get_data_from_vcpkg_json r dep)) acc,
      kv.2 = get_data_from_vcpkg_json r kv.1 := by
  induction deps generalizing acc with
  | nil => exact h
  | cons a as ih =>
    rw [List.foldl_cons]
    exact ih _ (dictInsert_values _ _ _ h)

/-- The keys of `dependencies_info` are exactly the parsed identifiers. -/
theorem dependencies_info_mem_keys (r : Registries) (deps : List String) (s : String) :
    s ∈ (dependencies_info r deps).map Prod.fst ↔ s ∈ deps := by
  unfold dependencies_info
  rw [depinfo_foldl_mem]
  simp

/-- The keys of `dependencies_info` are distinct. -/
theorem dependencies_info_nodup (r : Registries) (deps : List String) :
    ((dependencies_info r deps).map Prod.fst).Nodup := by
  unfold dependencies_info
  exact depinfo_foldl_nodup r deps [] (by simp)

/-- Every entry of `dependencies_info` holds the resolution of its key. -/
theorem dependencies_info_values (r : Registries) (deps : List String) :
    ∀ kv ∈ dependencies_info r deps, kv.2 = get_data_from_vcpkg_json r kv.1 := by
  unfold dependencies_info
  exact depinfo_foldl_values r deps [] (by simp)

/-- Counting elements equal to `s` that also satisfy `q` collapses to a
plain count gated on `q s`. -/
theorem countP_beq_and (l : List String) (s : String) (q : String → Bool) :
    l.countP (fun k => k == s && q k) = if q s then l.count s else 0 := by
  induction l with
  | nil => simp
  | cons a as ih =>
    rw [List.countP_cons, ih]
    by_cases ha : a = s
    · subst ha
      by_cases hq : q a
      · simp [hq, List.count_cons]
      · simp [hq, List.count_cons]
    · by_cases hq : q s
      · simp [ha, List.count_cons, beq_iff_eq, hq]
      · simp [ha, List.count_cons, beq_iff_eq, hq]

/-- In a duplicate-free list every element occurs zero or one times. -/
theorem count_nodup_eq (l : List String) (s : String) (h : l.Nodup) :
    l.count s = if s ∈ l then 1 else 0 := by
  by_cases hm : s ∈ l
  · rw [if_pos hm]
    exact List.count_eq_one_of_mem h hm
  · rw [if_neg hm]
    exact List.count_eq_zero_of_not_mem hm

/-- Filtering on the key commutes with projecting the keys. -/
theorem map_fst_filter_ne (l : List (String × DepInfo)) (pname : String) :
    (l.filter (fun kv => kv.1 != pname)).map Prod.fst =
      (l.map Prod.fst).filter (fun k => k != pname) := by
  induction l with
  | nil => rfl
  | cons a as ih =>
    by_cases h : a.1 = pname
    · simp [List.filter_cons, h, ih]
    · simp [List.filter_cons, h, ih]

/-- The names of the generated package records: the root's name followed
by the non-root keys of the metadata list, in order. -/
theorem generate_names_eq (proj : ProjectInfo) (deps_info : List (String × DepInfo)) :
    (generate_spdx_document proj deps_info).packages.map Package.name =
      proj.name :: (deps_info.map Prod.fst).filter (fun k => k != proj.name) := by
  rw [generate_packages_eq, List.map_cons, List.map_map, ← map_fst_filter_ne]
  rfl

/-! ### Concrete inputs for closed instances -/

/-- The project manifest of the end-to-end example:
`{name: "foo", license: "MIT", version: "1.0"}`. -/
def exampleProj : ProjectInfo :=
  { name := "foo", license := some "MIT", version := some "1.0" }

/-- `bar`'s manifest in the end-to-end example:
`{license: "BSD-3-Clause", version: "2.1"}`. -/
def barData : DepData :=
  { license := some "BSD-3-Clause", version := some "2.1" }

/-- Registries of the end-to-end example: no additional registry, the
official registry holds only `bar`. -/
def exampleReg : Registries :=
  { additionalConfigured := false, additional := [], official := [("bar", barData)] }

/-- The DGML graph of the end-to-end example, with nodes
`["foo", "bar"]`. -/
def exampleGraph : XmlElem :=
  .mk "\x7bhttp://schemas.microsoft.com/vs/2009/dgml\x7dDirectedGraph" []
    [.mk "\x7bhttp://schemas.microsoft.com/vs/2009/dgml\x7dNodes" []
      [.mk dgmlNodeTag [("Id", "foo")] [], .mk dgmlNodeTag [("Id", "bar")] []]]

/-- An all-absent dependency metadata record. -/
def emptyInfo : DepInfo := { license := none, homepage := none, version := none, description := none }

/-! ### The claims -/

/-- C1: on the end-to-end example (project `foo`/MIT/1.0, graph nodes
`["foo", "bar"]`, `bar` resolving to BSD-3-Clause/2.1), the parser yields
`foo` then `bar`, and the assembled document holds exactly two package
records — `foo` with declared license MIT and `bar` with declared
license BSD-3-Clause — and exactly one relationship,
`foo DEPENDS_ON bar`. -/
theorem C1_end_to_end :
    parse_dgml exampleGraph = [some "foo", some "bar"] ∧
    (run_pipeline exampleProj exampleReg ["foo", "bar"]).packages.map
        (fun p => (p.name, p.licenseDeclared)) = [("foo", "MIT"), ("bar", "BSD-3-Clause")] ∧
    (run_pipeline exampleProj exampleReg ["foo", "bar"]).packages.length = 2 ∧
    (run_pipeline exampleProj exampleReg ["foo", "bar"]).relationships =
      [{ spdxElementId := "SPDXRef-Package-foo"
       , relationshipType := "DEPENDS_ON"
       , relatedSpdxElement := "SPDXRef-Package-bar" }] :=
  ⟨rfl, rfl, rfl, rfl⟩

/-- C2: whenever the metadata mapping contains the root's identifier as
a key, the assembled document has exactly one package record carrying
the root's SPDX id — the root record itself, which is emitted first —
and no relationship targets the root's SPDX id. -/
theorem C2_root_exclusion (proj : ProjectInfo) (deps_info : List (String × DepInfo))
    (_hroot : proj.name ∈ deps_info.map Prod.fst) :
    (generate_spdx_document proj deps_info).packages.countP
        (fun p => p.SPDXID == "SPDXRef-Package-" ++ proj.name) = 1 ∧
    (generate_spdx_document proj deps_info).packages.head? = some (root_package proj) ∧
    ∀ rel ∈ (generate_spdx_document proj deps_info).relationships,
      rel.relatedSpdxElement ≠ "SPDXRef-Package-" ++ proj.name := by
  refine ⟨?_, ?_, ?_⟩
  · rw [generate_packages_eq, List.countP_cons]
    have h0 : ((deps_info.filter (fun kv => kv.1 != proj.name)).map
        (fun kv => dep_package kv.1 kv.2)).countP
        (fun p => p.SPDXID == "SPDXRef-Package-" ++ proj.name) = 0 := by
      rw [List.countP_eq_zero]
      intro p hp
      obtain ⟨kv, hkv, rfl⟩ := List.mem_map.1 hp
      have hne : kv.1 ≠ proj.name := bne_iff_ne.1 (List.mem_filter.1 hkv).2
      simp only [dep_package, beq_iff_eq]
      intro hc
      exact hne ((string_append_left_cancel _ _ _).1 hc)
    rw [h0]
    simp [root_package]
  · rw [generate_packages_eq]
    rfl
  · intro rel hrel
    rw [generate_relationships_eq] at hrel
    obtain ⟨kv, hkv, rfl⟩ := List.mem_map.1 hrel
    have hne : kv.1 ≠ proj.name := bne_iff_ne.1 (List.mem_filter.1 hkv).2
    intro hc
    exact hne ((string_append_left_cancel _ _ _).1 hc)

/-- Witness for C2 at a concrete input: mapping with keys `foo` (the
root) and `bar`. -/
theorem C2_root_exclusion_witness :
    "foo" ∈ ([("foo", emptyInfo), ("bar", emptyInfo)].map Prod.fst) ∧
    ((generate_spdx_document exampleProj [("foo", emptyInfo), ("bar", emptyInfo)]).packages.countP
        (fun p => p.SPDXID == "SPDXRef-Package-" ++ exampleProj.name) = 1 ∧
     (generate_spdx_document exampleProj [("foo", emptyInfo), ("bar", emptyInfo)]).packages.head? =
        some (root_package exampleProj) ∧
     ∀ rel ∈ (generate_spdx_document exampleProj [("foo", emptyInfo), ("bar", emptyInfo)]).relationships,
        rel.relatedSpdxElement ≠ "SPDXRef-Package-" ++ exampleProj.name) :=
  ⟨by simp [exampleProj], C2_root_exclusion exampleProj _ (by simp [exampleProj])⟩

/-- C3: for a metadata mapping with distinct keys, the document holds
exactly one relationship per non-root key, and every relationship goes
from the root package, with type DEPENDS_ON, to the SPDX id of a
non-root key of the mapping. -/
theorem C3_relationship_invariant (proj : ProjectInfo)
    (deps_info : List (String × DepInfo))
    (_hnd : (deps_info.map Prod.fst).Nodup) :
    (generate_spdx_document proj deps_info).relationships.length =
      ((deps_info.map Prod.fst).filter (fun k => k != proj.name)).length ∧
    ∀ rel ∈ (generate_spdx_document proj deps_info).relationships,
      rel.spdxElementId = "SPDXRef-Package-" ++ proj.name ∧
      rel.relationshipType = "DEPENDS_ON" ∧
      rel.relatedSpdxElement ≠ "SPDXRef-Package-" ++ proj.name ∧
      ∃ k ∈ deps_info.map Prod.fst, k ≠ proj.name ∧
        rel.relatedSpdxElement = "SPDXRef-Package-" ++ k := by
  constructor
  · rw [generate_relationships_eq, List.length_map, ← map_fst_filter_ne,
      List.length_map]
  · intro rel hrel
    rw [generate_relationships_eq] at hrel
    obtain ⟨kv, hkv, rfl⟩ := List.mem_map.1 hrel
    have hne : kv.1 ≠ proj.name := bne_iff_ne.1 (List.mem_filter.1 hkv).2
    refine ⟨rfl, rfl, ?_, kv.1, ?_, hne, rfl⟩
    · intro hc
      exact hne ((string_append_left_cancel _ _ _).1 hc)
    · exact List.mem_map.2 ⟨kv, (List.mem_filter.1 hkv).1, rfl⟩

/-- Witness for C3 at a concrete input: keys `foo` (the root) and
`bar`, hence one relationship. -/
theorem C3_relationship_invariant_witness :
    ([("foo", emptyInfo), ("bar", emptyInfo)].map Prod.fst).Nodup ∧
    (generate_spdx_document exampleProj [("foo", emptyInfo), ("bar", emptyInfo)]).relationships.length =
      (([("foo", emptyInfo), ("bar", emptyInfo)].map Prod.fst).filter
        (fun k => k != exampleProj.name)).length :=
  ⟨by simp, (C3_relationship_invariant exampleProj _ (by simp)).1⟩

/-- C4: manifest resolution tries the additional registry first (when
configured), then the official registry, and returns the four fields of
the first manifest that exists, never mixing two manifests; when a port
is in both registries with different licenses, the additional registry's
license wins. -/
theorem C4_registry_precedence (r : Registries) (dep : String) :
    (∀ d, r.additionalConfigured = true → lookupReg r.additional dep = some d →
      get_data_from_vcpkg_json r dep = readDepData d) ∧
    (∀ d, (r.additionalConfigured = false ∨ lookupReg r.additional dep = none) →
      lookupReg r.official dep = some d →
      get_data_from_vcpkg_json r dep = readDepData d) ∧
    (∀ d1 d2, r.additionalConfigured = true →
      lookupReg r.additional dep = some d1 →
      lookupReg r.official dep = some d2 →
      d1.license ≠ d2.license →
      (get_data_from_vcpkg_json r dep).license = d1.license ∧
      (get_data_from_vcpkg_json r dep).license ≠ d2.license) := by
  have hfirst : ∀ d, r.additionalConfigured = true →
      lookupReg r.additional dep = some d →
      get_data_from_vcpkg_json r dep = readDepData d := by
    intro d hc hl
    simp [get_data_from_vcpkg_json, candidate_manifests, hc, hl, firstExisting]
  refine ⟨hfirst, ?_, ?_⟩
  · rintro d (hc | hl) ho
    · simp [get_data_from_vcpkg_json, candidate_manifests, hc, ho, firstExisting]
    · by_cases hc : r.additionalConfigured
      · simp [get_data_from_vcpkg_json, candidate_manifests, hc, hl, ho, firstExisting]
      · simp [get_data_from_vcpkg_json, candidate_manifests, hc, ho, firstExisting]
  · intro d1 d2 hc hl ho hne
    rw [hfirst d1 hc hl]
    exact ⟨rfl, hne⟩

/-- Manifest of port `x` in the additional registry of the C4 witness. -/
def addXData : DepData := { license := some "Apache-2.0" }

/-- Manifest of port `x` in the official registry of the C4 witness. -/
def offXData : DepData := { license := some "GPL-3.0" }

/-- Registries for the C4 witness: `x` present on both sides with
differing licenses. -/
def overlayReg : Registries :=
  { additionalConfigured := true
  , additional := [("x", addXData)]
  , official := [("x", offXData)] }

/-- Witness for C4 at a concrete input: the additional registry's
license wins for a port present in both registries. -/
theorem C4_registry_precedence_witness :
    (overlayReg.additionalConfigured = true ∧
     lookupReg overlayReg.additional "x" = some addXData ∧
     lookupReg overlayReg.official "x" = some offXData ∧
     addXData.license ≠ offXData.license) ∧
    ((get_data_from_vcpkg_json overlayReg "x").license = addXData.license ∧
     (get_data_from_vcpkg_json overlayReg "x").license ≠ offXData.license) :=
  ⟨⟨rfl, rfl, rfl, by decide⟩,
   (C4_registry_precedence overlayReg "x").2.2 addXData offXData rfl rfl rfl (by decide)⟩

/-- Helper: a present, non-empty string survives the `or "NOASSERTION"`
normalization. -/
theorem orNOASSERTION_some (h : String) (hne : h ≠ "") :
    orNOASSERTION (some h) = h := by
  simp [orNOASSERTION, hne]

/-- C5: when no candidate manifest path exists for an identifier, the
resolver returns all four fields absent (no error is possible: the
function is total), and if that identifier was parsed from the graph and
is not the root, its emitted package record has licenseDeclared,
homepage, versionInfo and description — and downloadLocation — all equal
to "NOASSERTION". -/
theorem C5_unresolvable_dependency (proj : ProjectInfo) (r : Registries)
    (deps : List String) (dep : String)
    (hadd : r.additionalConfigured = true → lookupReg r.additional dep = none)
    (hoff : lookupReg r.official dep = none) :
    get_data_from_vcpkg_json r dep =
      { license := none, homepage := none, version := none, description := none } ∧
    (dep ∈ deps → dep ≠ proj.name →
      ∃ p ∈ (run_pipeline proj r deps).packages,
        p.name = dep ∧ p.licenseDeclared = "NOASSERTION" ∧
        p.homepage = "NOASSERTION" ∧ p.versionInfo = "NOASSERTION" ∧
        p.description = "NOASSERTION" ∧ p.downloadLocation = "NOASSERTION") := by
  have h1 : get_data_from_vcpkg_json r dep =
      { license := none, homepage := none, version := none, description := none } := by
    by_cases hc : r.additionalConfigured
    · simp [get_data_from_vcpkg_json, candidate_manifests, hc, hadd hc, hoff, firstExisting]
    · simp [get_data_from_vcpkg_json, candidate_manifests, hc, hoff, firstExisting]
  refine ⟨h1, fun hmem hne => ?_⟩
  have hkey : dep ∈ (dependencies_info r deps).map Prod.fst :=
    (dependencies_info_mem_keys r deps dep).2 hmem
  obtain ⟨kv, hkv, hfst⟩ := List.mem_map.1 hkey
  have hval : kv.2 = get_data_from_vcpkg_json r kv.1 :=
    dependencies_info_values r deps kv hkv
  refine ⟨dep_package kv.1 kv.2, ?_, ?_⟩
  · unfold run_pipeline
    rw [generate_packages_eq]
    refine List.mem_cons_of_mem _ (List.mem_map.2 ⟨kv, ?_, rfl⟩)
    refine List.mem_filter.2 ⟨hkv, ?_⟩
    rw [hfst]
    exact bne_iff_ne.2 hne
  · have heq : dep_package kv.1 kv.2 =
        dep_package dep { license := none, homepage := none, version := none, description := none } := by
      rw [hval, hfst, h1]
    rw [heq]
    exact ⟨rfl, rfl, rfl, rfl, rfl, rfl⟩

/-- Witness for C5 at a concrete input: `bar` is in the graph but in
neither registry (empty registries). -/
theorem C5_unresolvable_dependency_witness :
    lookupReg ({ additionalConfigured := false, additional := [], official := [] } : Registries).official "bar" = none ∧
    get_data_from_vcpkg_json { additionalConfigured := false, additional := [], official := [] } "bar" =
      { license := none, homepage := none, version := none, description := none } ∧
    ∃ p ∈ (run_pipeline exampleProj { additionalConfigured := false, additional := [], official := [] } ["foo", "bar"]).packages,
      p.name = "bar" ∧ p.licenseDeclared = "NOASSERTION" ∧
      p.homepage = "NOASSERTION" ∧ p.versionInfo = "NOASSERTION" ∧
      p.description = "NOASSERTION" ∧ p.downloadLocation = "NOASSERTION" := by
  have h := C5_unresolvable_dependency exampleProj
    { additionalConfigured := false, additional := [], official := [] }
    ["foo", "bar"] "bar" (fun hc => by cases hc) rfl
  exact ⟨rfl, h.1, h.2 (by simp) (by decide)⟩

/-- C6: `parse_dgml` returns `node.get('Id')` for every `Node` element
of the graph document, in document order, dropping nothing and
deduplicating nothing: each identifier occurs exactly as often as nodes
carrying it occur. -/
theorem C6_parse_preserves_nodes (root : XmlElem) :
    parse_dgml root = (dgmlNodes root).map (fun e => attrGet e "Id") ∧
    ∀ s : String, (parse_dgml root).count (some s) =
      ((dgmlNodes root).filter (fun e => attrGet e "Id" == some s)).length := by
  refine ⟨parse_dgml_eq_map root, fun s => ?_⟩
  rw [parse_dgml_eq_map, List.count, List.countP_map, List.countP_eq_length_filter]
  rfl

/-- Witness for C6 at a concrete input: the example graph parses to its
two node ids in document order. -/
theorem C6_parse_preserves_nodes_witness :
    parse_dgml exampleGraph = [some "foo", some "bar"] ∧
    (parse_dgml exampleGraph).count (some "foo") = 1 := by
  have h := C6_parse_preserves_nodes exampleGraph
  exact ⟨h.1.trans (by rfl), (h.2 "foo").trans (by rfl)⟩

/-- A manifest carrying a plain `version` key together with
`version-semver` and `version-date` keys. -/
def manifestAllVersions : DepData :=
  { version := some "0"
  , versionSemver := some "1.2.3"
  , versionDate := some "2020-01-01" }

/-- C7 counterexample: a manifest containing both a `version-semver` and
a `version-date` field, for which version extraction does NOT return the
semver value — the plain `version` key precedes `version-semver` in the
fixed key list, so its value `"0"` is returned instead of `"1.2.3"`. -/
theorem C7_counterexample :
    manifestAllVersions.versionSemver = some "1.2.3" ∧
    manifestAllVersions.versionDate = some "2020-01-01" ∧
    get_version_from_dep_data manifestAllVersions = some "0" ∧
    get_version_from_dep_data manifestAllVersions ≠ manifestAllVersions.versionSemver :=
  ⟨rfl, rfl, rfl, by decide⟩

/-- C7 amended: version extraction follows the fixed key precedence
`version`, `version-semver`, `version-date`, `version-string` and
returns the first present, non-null value; in particular, a manifest
with both a semver-version and a date-version field and no plain
`version` field yields the semver value. -/
theorem C7_version_precedence (d : DepData) :
    (∀ w, d.version = some w → get_version_from_dep_data d = some w) ∧
    (d.version = none → ∀ v, d.versionSemver = some v →
      get_version_from_dep_data d = some v) ∧
    (d.version = none → d.versionSemver = none → ∀ v, d.versionDate = some v →
      get_version_from_dep_data d = some v) ∧
    (d.version = none → d.versionSemver = none → d.versionDate = none →
      get_version_from_dep_data d = d.versionString) := by
  obtain ⟨lic, hp, ver, vs, vd, vstr, desc⟩ := d
  refine ⟨?_, ?_, ?_, ?_⟩
  · rintro w rfl
    rfl
  · rintro rfl v rfl
    rfl
  · rintro rfl rfl v rfl
    rfl
  · rintro rfl rfl rfl
    cases vstr <;> rfl

/-- A manifest with both a semver-version and a date-version field and
no plain `version` field. -/
def manifestSemverDate : DepData :=
  { versionSemver := some "1.2.3", versionDate := some "2020-01-01" }

/-- Witness for the amended C7 at a concrete input: with no plain
`version` key, the semver value beats the date value. -/
theorem C7_version_precedence_witness :
    (manifestSemverDate.version = none ∧
     manifestSemverDate.versionSemver = some "1.2.3" ∧
     manifestSemverDate.versionDate = some "2020-01-01") ∧
    get_version_from_dep_data manifestSemverDate = some "1.2.3" :=
  ⟨⟨rfl, rfl, rfl⟩, (C7_version_precedence manifestSemverDate).2.1 rfl "1.2.3" rfl⟩

/-- C8: for every parsed identifier list, duplicates included, the
assembled document has exactly one package record per distinct
identifier: one for the root name, one for each distinct parsed
identifier other than the root, and none otherwise. -/
theorem C8_one_record_per_identifier (proj : ProjectInfo) (r : Registries)
    (deps : List String) (s : String) :
    ((run_pipeline proj r deps).packages.map Package.name).count s =
      if s = proj.name then 1 else if s ∈ deps then 1 else 0 := by
  unfold run_pipeline
  rw [generate_names_eq, List.count_cons]
  have hnd : ((dependencies_info r deps).map Prod.fst).Nodup :=
    dependencies_info_nodup r deps
  have hflt : (((dependencies_info r deps).map Prod.fst).filter
      (fun k => k != proj.name)).count s =
      if (s != proj.name) = true
      then ((dependencies_info r deps).map Prod.fst).count s else 0 := by
    rw [List.count, List.countP_filter]
    exact countP_beq_and _ s _
  rw [hflt]
  by_cases hs : s = proj.name
  · rw [if_neg (by simp [hs]), if_pos hs]
    simp [hs]
  · rw [if_pos (bne_iff_ne.2 hs), count_nodup_eq _ _ hnd, if_neg hs]
    have hmem := dependencies_info_mem_keys r deps s
    by_cases hm : s ∈ deps
    · rw [if_pos (hmem.2 hm), if_pos hm]
      rw [if_neg (by rw [beq_iff_eq]; exact fun hc => hs hc.symm)]
    · rw [if_neg (fun hc => hm (hmem.1 hc)), if_neg hm]
      rw [if_neg (by rw [beq_iff_eq]; exact fun hc => hs hc.symm)]

/-- Witness for C8 at a concrete input: the graph repeats `bar`, yet the
document carries a single `bar` record. -/
theorem C8_one_record_per_identifier_witness :
    ((run_pipeline exampleProj exampleReg ["foo", "bar", "bar"]).packages.map
        Package.name).count "bar" = 1 :=
  (C8_one_record_per_identifier exampleProj exampleReg ["foo", "bar", "bar"] "bar").trans
    (by rfl)

/-- A dependency metadata record whose homepage is present but empty. -/
def emptyHomepageInfo : DepInfo :=
  { license := some "MIT", homepage := some "", version := some "1", description := none }

/-- C9 counterexample: for a dependency whose resolved homepage is the
present (non-absent) value `""`, the emitted record's homepage and
downloadLocation are `"NOASSERTION"`, not the resolved value — Python's
`or` also replaces the empty string, so "present" alone is not enough. -/
theorem C9_counterexample :
    emptyHomepageInfo.homepage = some "" ∧
    (generate_spdx_document exampleProj [("bar", emptyHomepageInfo)]).packages.map
        (fun p => (p.homepage, p.downloadLocation)) =
      [("NOASSERTION", "NOASSERTION"), ("NOASSERTION", "NOASSERTION")] ∧
    ("NOASSERTION" : String) ≠ "" :=
  ⟨rfl, rfl, by decide⟩

/-- C9 amended: in every emitted package record, root and dependency
alike, downloadLocation equals homepage; both carry the resolved
homepage when it is present and non-empty, and the string "NOASSERTION"
when it is absent or empty — no real download location is ever
recorded. -/
theorem C9_download_location (proj : ProjectInfo)
    (deps_info : List (String × DepInfo)) :
    (∀ p ∈ (generate_spdx_document proj deps_info).packages,
      p.downloadLocation = p.homepage) ∧
    (∀ kv ∈ deps_info, kv.1 ≠ proj.name →
      ∃ p ∈ (generate_spdx_document proj deps_info).packages,
        p.name = kv.1 ∧
        (∀ h, kv.2.homepage = some h → h ≠ "" → p.homepage = h) ∧
        ((kv.2.homepage = none ∨ kv.2.homepage = some "") →
          p.homepage = "NOASSERTION")) ∧
    (∀ h, proj.homepage = some h → h ≠ "" →
      ∃ p ∈ (generate_spdx_document proj deps_info).packages,
        p.name = proj.name ∧ p.homepage = h) ∧
    ((proj.homepage = none ∨ proj.homepage = some "") →
      ∃ p ∈ (generate_spdx_document proj deps_info).packages,
        p.name = proj.name ∧ p.homepage = "NOASSERTION") := by
  have hroot : root_package proj ∈ (generate_spdx_document proj deps_info).packages := by
    rw [generate_packages_eq]
    exact List.mem_cons_self _ _
  refine ⟨?_, ?_, ?_, ?_⟩
  · intro p hp
    rw [generate_packages_eq] at hp
    rcases List.mem_cons.1 hp with rfl | hp2
    · rfl
    · obtain ⟨kv, _, rfl⟩ := List.mem_map.1 hp2
      rfl
  · intro kv hkv hne
    refine ⟨dep_package kv.1 kv.2, ?_, rfl, ?_, ?_⟩
    · rw [generate_packages_eq]
      refine List.mem_cons_of_mem _ (List.mem_map.2 ⟨kv, ?_, rfl⟩)
      exact List.mem_filter.2 ⟨hkv, bne_iff_ne.2 hne⟩
    · intro h hh hne2
      show orNOASSERTION kv.2.homepage = h
      rw [hh]
      exact orNOASSERTION_some h hne2
    · rintro (hh | hh) <;>
        · show orNOASSERTION kv.2.homepage = "NOASSERTION"
          rw [hh]
          rfl
  · intro h hh hne2
    refine ⟨root_package proj, hroot, rfl, ?_⟩
    show orNOASSERTION proj.homepage = h
    rw [hh]
    exact orNOASSERTION_some h hne2
  · rintro (hh | hh) <;>
      · refine ⟨root_package proj, hroot, rfl, ?_⟩
        show orNOASSERTION proj.homepage = "NOASSERTION"
        rw [hh]
        rfl

/-- A project with a present, non-empty homepage, for the C9 witness. -/
def homepageProj : ProjectInfo :=
  { name := "foo", homepage := some "https://example.org" }

/-- Witness for the amended C9 at a concrete input: a non-empty homepage
is carried into the root record, and downloadLocation tracks it. -/
theorem C9_download_location_witness :
    (homepageProj.homepage = some "https://example.org" ∧
     ("https://example.org" : String) ≠ "") ∧
    ((∀ p ∈ (generate_spdx_document homepageProj []).packages,
        p.downloadLocation = p.homepage) ∧
     ∃ p ∈ (generate_spdx_document homepageProj []).packages,
        p.name = homepageProj.name ∧ p.homepage = "https://example.org") :=
  ⟨⟨rfl, by decide⟩,
   (C9_download_location homepageProj []).1,
   (C9_download_location homepageProj []).2.2.1 "https://example.org" rfl (by decide)⟩

/-- C10: every emitted package record, root and dependency alike, has
licenseConcluded fixed to "NOASSERTION"; a manifest's declared license
only ever reaches licenseDeclared. -/
theorem C10_license_concluded (proj : ProjectInfo)
    (deps_info : List (String × DepInfo)) :
    (∀ p ∈ (generate_spdx_document proj deps_info).packages,
      p.licenseConcluded = "NOASSERTION") ∧
    (∀ kv ∈ deps_info, kv.1 ≠ proj.name → ∀ lic, kv.2.license = some lic → lic ≠ "" →
      ∃ p ∈ (generate_spdx_document proj deps_info).packages,
        p.name = kv.1 ∧ p.licenseDeclared = lic ∧ p.licenseConcluded = "NOASSERTION") := by
  constructor
  · intro p hp
    rw [generate_packages_eq] at hp
    rcases List.mem_cons.1 hp with rfl | hp2
    · rfl
    · obtain ⟨kv, _, rfl⟩ := List.mem_map.1 hp2
      rfl
  · intro kv hkv hne lic hlic hne2
    refine ⟨dep_package kv.1 kv.2, ?_, rfl, ?_, rfl⟩
    · rw [generate_packages_eq]
      refine List.mem_cons_of_mem _ (List.mem_map.2 ⟨kv, ?_, rfl⟩)
      exact List.mem_filter.2 ⟨hkv, bne_iff_ne.2 hne⟩
    · show orNOASSERTION kv.2.license = lic
      rw [hlic]
      exact orNOASSERTION_some lic hne2

/-- Witness for C10 at a concrete input: `bar` declares MIT, which lands
in licenseDeclared while licenseConcluded stays "NOASSERTION". -/
theorem C10_license_concluded_witness :
    (∀ p ∈ (generate_spdx_document exampleProj [("bar", emptyHomepageInfo)]).packages,
      p.licenseConcluded = "NOASSERTION") ∧
    ∃ p ∈ (generate_spdx_document exampleProj [("bar", emptyHomepageInfo)]).packages,
      p.name = "bar" ∧ p.licenseDeclared = "MIT" ∧ p.licenseConcluded = "NOASSERTION" :=
  ⟨(C10_license_concluded exampleProj [("bar", emptyHomepageInfo)]).1,
   (C10_license_concluded exampleProj [("bar", emptyHomepageInfo)]).2
     ("bar", emptyHomepageInfo) (by simp) (by decide) "MIT" rfl (by decide)⟩
